import Mathlib

/-!
Verification of the export-destination resolution and batch artifact delivery
pipeline of `src/scripts/utils/utils.ts` (class `Utils`).

The `Path` value class, the native dialog collaborator, the vault filesystem
adapter, the notice channel and the progress/error log are external
collaborators of this file; they are embedded abstractly: `Path` as a type
parameter together with a record `PathOps` of its operations, and the
side-effecting collaborators as events recorded in a trace, with the
fallible filesystem replies supplied by an environment record.
-/

set_option autoImplicit false

namespace WebpageExport

/-- Operations of the external `Path` value class (`scripts/utils/path.ts`),
as used by `Utils`: constructor, string form, join, parent directory,
absolute form, extension, existence check, and the static vault path. -/
structure PathOps (P : Type) where
  mkPath : String → P
  asString : P → String
  joinString : P → String → P
  directory : P → P
  absolute : P → P
  extension : P → String
  pathExists : P → Bool
  vaultPath : P

/-- One entry of the filter list handed to the native save dialog. -/
structure DialogFilter where
  name : String
  extensions : List String
  deriving DecidableEq, Repr

/-- Reply of the native save dialog collaborator; an absent `filePath`
(JS `undefined`) is modelled as the empty string, which is likewise falsy. -/
structure SaveDialogResult where
  canceled : Bool
  filePath : String
  deriving DecidableEq, Repr

/-- Reply of the native open dialog collaborator. -/
structure OpenDialogResult where
  canceled : Bool
  filePaths : List String
  deriving DecidableEq, Repr

/-- Observable actions of the picker operations: invoking a native dialog
collaborator, or emitting a user-visible notice. -/
inductive PickEvent where
  | nativeSaveDialog (defaultPath : String) (filters : List DialogFilter)
  | nativeOpenDialog (defaultPath : String) (properties : List String)
  | notice (msg : String)
  deriving DecidableEq, Repr

/-- `Utils.trimStart`: remove `trimString` from the front of `inputString`
when present (`substring(trimString.length)`). -/
def trimStart (inputString trimString : String) : String :=
  if inputString.startsWith trimString then inputString.drop trimString.length
  else inputString

/-- `Utils.trimEnd`: remove `trimString` from the end of `inputString` when present. -/
def trimEnd (inputString trimString : String) : String :=
  if inputString.endsWith trimString then
    inputString.take (inputString.length - trimString.length)
  else inputString

/-- The `absoluteDefaultPath` computed by `Utils.showSaveDialog` on the
desktop branch: `defaultPath.directory.absolute().joinString(defaultFileName)`. -/
def saveDialogDefaultPath {P : Type} (ops : PathOps P) (defaultPath : P)
    (defaultFileName : String) : P :=
  ops.joinString (ops.absolute (ops.directory defaultPath)) defaultFileName

/-- The filter list `Utils.showSaveDialog` builds for the native save dialog. -/
def saveDialogFilters {P : Type} (ops : PathOps P) (defaultPath : P)
    (defaultFileName : String) (showAllFilesOption : Bool) : List DialogFilter :=
  let absoluteDefaultPath := saveDialogDefaultPath ops defaultPath defaultFileName
  let filters : List DialogFilter :=
    [⟨(trimStart (ops.extension absoluteDefaultPath) ".").toUpper ++ " Files",
      [trimStart (ops.extension absoluteDefaultPath) "."]⟩]
  if showAllFilesOption then filters ++ [⟨"All Files", ["*"]⟩] else filters

/-- `Utils.showSaveDialog`. `isDesktopApp` is the platform capability flag;
`dialogReply` is the native dialog collaborator's answer, consumed only on
the desktop branch. Returns the trace of observable actions and the result
(`none` models the JS `undefined`). -/
def showSaveDialog {P : Type} (ops : PathOps P) (isDesktopApp : Bool)
    (dialogReply : SaveDialogResult) (defaultPath : P) (defaultFileName : String)
    (showAllFilesOption : Bool) : List PickEvent × Option P :=
  if isDesktopApp then
    let absoluteDefaultPath := saveDialogDefaultPath ops defaultPath defaultFileName
    let filters := saveDialogFilters ops defaultPath defaultFileName showAllFilesOption
    ([.nativeSaveDialog (ops.asString absoluteDefaultPath) filters],
      if dialogReply.canceled = false ∧ dialogReply.filePath ≠ "" then
        some (ops.mkPath dialogReply.filePath)
      else none)
  else
    let exportPath := ops.joinString (ops.directory defaultPath) defaultFileName
    ([.notice ("Exporting to " ++ ops.asString exportPath)], some exportPath)

/-- `Utils.showSelectFolderDialog`. -/
def showSelectFolderDialog {P : Type} (ops : PathOps P) (isDesktopApp : Bool)
    (dialogReply : OpenDialogResult) (defaultPath : P) : List PickEvent × Option P :=
  if isDesktopApp then
    ([.nativeOpenDialog (ops.asString defaultPath) ["openDirectory"]],
      match dialogReply.canceled, dialogReply.filePaths with
      | false, p :: _ => some (ops.mkPath p)
      | _, _ => none)
  else
    ([.notice ("Using default folder: " ++ ops.asString defaultPath)], some defaultPath)

/-- `Utils.showSelectFileDialog`. -/
def showSelectFileDialog {P : Type} (ops : PathOps P) (isDesktopApp : Bool)
    (dialogReply : OpenDialogResult) (defaultPath : P) : List PickEvent × Option P :=
  if isDesktopApp then
    ([.nativeOpenDialog (ops.asString defaultPath) ["openFile"]],
      match dialogReply.canceled, dialogReply.filePaths with
      | false, p :: _ => some (ops.mkPath p)
      | _, _ => none)
  else
    ([.notice ("Using default file: " ++ ops.asString defaultPath)], some defaultPath)

/-- `Utils.idealDefaultPath`: construct a `Path` from the stored
`Settings.exportPath` string; if its string form is non-empty and it exists
on disk, return its parent directory, else the vault path. -/
def idealDefaultPath {P : Type} (ops : PathOps P) (exportPath : String) : P :=
  let lastPath := ops.mkPath exportPath
  if ops.asString lastPath ≠ "" ∧ ops.pathExists lastPath = true then
    ops.directory lastPath
  else
    ops.vaultPath

/-- `true` exactly on the events that invoke the native dialog collaborator. -/
def isNativeDialogEvent : PickEvent → Bool
  | .nativeSaveDialog _ _ => true
  | .nativeOpenDialog _ _ => true
  | .notice _ => false

/-- Split a character list at every slash, keeping empty segments. -/
def splitSlash : List Char → List (List Char)
  | [] => [[]]
  | c :: rest =>
    let r := splitSlash rest
    if c = '/' then [] :: r
    else (c :: r.headD []) :: r.tail

/-- Modelled from the spec: the repository's `Path` value class
(`scripts/utils/path.ts`) is not available under `src/`. The spec describes
it as "an abstract filesystem location, decomposed into directory and leaf
name, with derived operations (join, absolute form, existence check,
extension)". We model a path as its list of segments. Used only to
instantiate the abstract `PathOps` interface in concrete witnesses and
counterexamples. -/
structure SpecPath where
  segs : List String
  deriving DecidableEq, Repr

/-- Modelled from the spec: the string form of a `SpecPath`. -/
def SpecPath.asString (p : SpecPath) : String := String.intercalate "/" p.segs

/-- Modelled from the spec: the extension (with its leading dot) of a leaf name. -/
def specExtension (leaf : String) : String :=
  let parts := leaf.splitOn "."
  if parts.length ≤ 1 then "" else "." ++ parts.getLastD ""

/-- Modelled from the spec: a concrete instantiation of the `Path`
operations, with the disk state given as the list of existing path strings. -/
def specPathOps (disk : List String) : PathOps SpecPath where
  mkPath s := ⟨(splitSlash s.data).map (fun l => ⟨l⟩)⟩
  asString := SpecPath.asString
  joinString p s := ⟨p.segs ++ (splitSlash s.data).map (fun l => ⟨l⟩)⟩
  directory p := ⟨p.segs.dropLast⟩
  absolute p := p
  extension p := specExtension (p.segs.getLastD "")
  pathExists p := disk.contains p.asString
  vaultPath := ⟨["vault"]⟩

/-- Content of a `Downloadable`: a JS string or a binary buffer. -/
inductive DlContent where
  | str (s : String)
  | buffer (bytes : List Nat)
  deriving DecidableEq, Repr

/-- The fields of `Downloadable` consumed by `Utils.downloadFiles`. -/
structure Downloadable (P : Type) where
  relativePath : P
  relativeDirectory : P
  content : DlContent
  encoding : String

/-- Replies of the vault filesystem adapter and of `Buffer.toString`:
`none` means the call succeeds, `some err` that it throws `err`. -/
structure VaultEnv where
  mkdirResult : String → Option String
  writeResult : String → Option String
  bufferToString : List Nat → String → String

/-- Observable actions of `Utils.downloadFiles`: a progress report, a
directory-creation attempt, a write attempt, an error-log entry, a notice. -/
inductive DlEvent where
  | progress (currentIndex total : Nat) (label detail : String)
  | mkdirAttempt (dir : String)
  | writeAttempt (path : String) (payload : String)
  | errorLog (msg : String)
  | notice (msg : String)
  deriving DecidableEq, Repr

/-- The directory-creation target of one artifact:
`rootPath.joinString(file.relativeDirectory.asString).asString`. -/
def dirPathOf {P : Type} (ops : PathOps P) (rootPath : P) (file : Downloadable P) : String :=
  ops.asString (ops.joinString rootPath (ops.asString file.relativeDirectory))

/-- The write target of one artifact:
`rootPath.joinString(file.relativePath.asString).asString`. -/
def filePathOf {P : Type} (ops : PathOps P) (rootPath : P) (file : Downloadable P) : String :=
  ops.asString (ops.joinString rootPath (ops.asString file.relativePath))

/-- The string written for one artifact:
`typeof content === 'string' ? content : content.toString(encoding)`. -/
def payloadOf {P : Type} (env : VaultEnv) (file : Downloadable P) : String :=
  match file.content with
  | .str s => s
  | .buffer b => env.bufferToString b file.encoding

/-- One iteration of the `Utils.downloadFiles` loop for artifact `file` at
index `i` of `total`: report progress, then inside the try block create the
directory and write the file; on either throw, log the error and emit a
notice, both naming the artifact's relative path. -/
def downloadStep {P : Type} (ops : PathOps P) (env : VaultEnv) (rootPath : P)
    (total i : Nat) (file : Downloadable P) : List DlEvent :=
  .progress i total "Downloading Files"
      ("Downloading: " ++ ops.asString file.relativePath) ::
  .mkdirAttempt (dirPathOf ops rootPath file) ::
  match env.mkdirResult (dirPathOf ops rootPath file) with
  | some err =>
    [.errorLog ("Failed to write file " ++ ops.asString file.relativePath ++ ": " ++ err),
     .notice ("Failed to write file " ++ ops.asString file.relativePath)]
  | none =>
    .writeAttempt (filePathOf ops rootPath file) (payloadOf env file) ::
    match env.writeResult (filePathOf ops rootPath file) with
    | some err =>
      [.errorLog ("Failed to write file " ++ ops.asString file.relativePath ++ ": " ++ err),
       .notice ("Failed to write file " ++ ops.asString file.relativePath)]
    | none => []

/-- The `Utils.downloadFiles` loop from index `i` on. -/
def downloadFilesFrom {P : Type} (ops : PathOps P) (env : VaultEnv) (rootPath : P)
    (total : Nat) : Nat → List (Downloadable P) → List DlEvent
  | _, [] => []
  | i, file :: rest =>
    downloadStep ops env rootPath total i file ++
      downloadFilesFrom ops env rootPath total (i + 1) rest

/-- `Utils.downloadFiles`: iterate over `files` in order, with `i` running
from `0` to `files.length - 1`; returns the trace of observable actions. -/
def downloadFiles {P : Type} (ops : PathOps P) (env : VaultEnv)
    (files : List (Downloadable P)) (rootPath : P) : List DlEvent :=
  downloadFilesFrom ops env rootPath files.length 0 files

/-- `true` exactly on progress events. -/
def isProgressEvent : DlEvent → Bool
  | .progress _ _ _ _ => true
  | _ => false

/-- `true` exactly on write attempts. -/
def isWriteEvent : DlEvent → Bool
  | .writeAttempt _ _ => true
  | _ => false

/-- `true` exactly on error-log entries. -/
def isErrorLogEvent : DlEvent → Bool
  | .errorLog _ => true
  | _ => false

/-- `true` exactly on notices. -/
def isNoticeEvent : DlEvent → Bool
  | .notice _ => true
  | _ => false

/-- The `currentIndex` of a progress event (junk value `0` elsewhere). -/
def progressIndex : DlEvent → Nat
  | .progress i _ _ _ => i
  | _ => 0

/-- Observable actions of `Utils.waitUntil`: sampling the predicate at a
tick, scheduling the interval timer, clearing it, and resolving. -/
inductive WaitEvent where
  | sample (tick : Nat) (value : Bool)
  | scheduleTimer
  | clearTimer
  | resolved (value : Bool)
  deriving DecidableEq, Repr

/-- The `setInterval` callback loop of `Utils.waitUntil`: at each tick the
predicate is sampled; if true the timer is cleared and the promise resolves
`true`; otherwise `timer += interval` and once `timer >= timeout` the timer
is cleared and the promise resolves `false`. `condition t` is the
predicate's value at tick `t`; `fuel` bounds the number of simulated ticks
(`none` means the promise is still pending after `fuel` ticks). -/
def waitGo (condition : Nat → Bool) (timeout interval : Nat) :
    Nat → Nat → Nat → List WaitEvent × Option Bool
  | 0, _, _ => ([], none)
  | fuel + 1, t, timer =>
    if condition t then
      ([.sample t true, .clearTimer, .resolved true], some true)
    else
      let timer2 := timer + interval
      if timeout ≤ timer2 then
        ([.sample t false, .clearTimer, .resolved false], some false)
      else
        let r := waitGo condition timeout interval fuel (t + 1) timer2
        (.sample t false :: r.1, r.2)

/-- `Utils.waitUntil`: the predicate is evaluated once up front (tick `0`);
if true the promise resolves `true` immediately, otherwise an interval
timer is scheduled and the loop `waitGo` runs from tick `1` with `timer = 0`. -/
def waitUntil (condition : Nat → Bool) (timeout interval fuel : Nat) :
    List WaitEvent × Option Bool :=
  if condition 0 then
    ([.sample 0 true, .resolved true], some true)
  else
    let r := waitGo condition timeout interval fuel 1 0
    (.sample 0 false :: .scheduleTimer :: r.1, r.2)

/-- `true` exactly on predicate-sampling events. -/
def isSampleEvent : WaitEvent → Bool
  | .sample _ _ => true
  | _ => false

/-- The waiter's run resolves with value `v`, and the interval timer is
cleared immediately before resolution with nothing happening afterwards. -/
def resolvesCleanly (r : List WaitEvent × Option Bool) (v : Bool) : Prop :=
  r.2 = some v ∧ ∃ l, r.1 = l ++ [.clearTimer, .resolved v]

/-- The entry `arr[i][j]` of the dynamic-programming array built by
`Utils.levenshteinDistance`: `arr[i] = [i]`, `arr[0][j] = j`, and otherwise
the minimum of `arr[i-1][j] + 1`, `arr[i][j-1] + 1` and
`arr[i-1][j-1] + (string1[j-1] === string2[i-1] ? 0 : 1)`. -/
def levEntry (string1 string2 : List Char) : Nat → Nat → Nat
  | 0, j => j
  | i + 1, 0 => i + 1
  | i + 1, j + 1 =>
    min (min (levEntry string1 string2 i (j + 1) + 1)
             (levEntry string1 string2 (i + 1) j + 1))
        (levEntry string1 string2 i j +
          if string1.get? j = string2.get? i then 0 else 1)
termination_by i j => i + j

/-- `Utils.levenshteinDistance`: early returns for an empty argument, then
the dynamic program, whose result is `arr[string2.length][string1.length]`. -/
def levenshteinDistance (string1 string2 : String) : Nat :=
  if string1.length = 0 then string2.length
  else if string2.length = 0 then string1.length
  else levEntry string1.data string2.data string2.length string1.length

/-- Reference edit distance: the textbook Levenshtein recursion on lists. -/
def levRef : List Char → List Char → Nat
  | [], ys => ys.length
  | x :: xs, [] => (x :: xs).length
  | x :: xs, y :: ys =>
    min (min (levRef xs (y :: ys) + 1) (levRef (x :: xs) ys + 1))
        (levRef xs ys + if x = y then 0 else 1)
termination_by xs ys => xs.length + ys.length

/-- JS `String.prototype.repeat`, `n` whole repetitions. -/
def stringRepeatN (s : String) : Nat → String
  | 0 => ""
  | n + 1 => s ++ stringRepeatN s n

/-- JS `String.prototype.repeat` on an integer count: throws a `RangeError`
for a negative count. -/
def stringRepeat (s : String) (count : Int) : Except String String :=
  if count < 0 then .error "RangeError: Invalid count value"
  else .ok (stringRepeatN s count.toNat)

/-- `Utils.padStringBeggining`: `char.repeat(length - str.length) + str`,
where the subtraction is over JS numbers and so may be negative. -/
def padStringBeggining (str : String) (length : Nat) (char : String) :
    Except String String :=
  (stringRepeat char ((length : Int) - (str.length : Int))).map (fun pad => pad ++ str)

/-- A concrete artifact list over `SpecPath`, used to exercise the batch
delivery operation in witnesses. -/
def sampleFiles : List (Downloadable SpecPath) :=
  [⟨(specPathOps []).mkPath "a.html", (specPathOps []).mkPath "", .str "A", "utf8"⟩,
   ⟨(specPathOps []).mkPath "css/b.css", (specPathOps []).mkPath "css", .str "B", "utf8"⟩,
   ⟨(specPathOps []).mkPath "c.html", (specPathOps []).mkPath "", .buffer [1, 2], "base64"⟩]

/-- A concrete destination root for the sample scenario. -/
def sampleRoot : SpecPath := (specPathOps []).mkPath "root"

/-- A concrete filesystem environment in which every directory creation
succeeds and exactly the write of `root/css/b.css` throws a storage error. -/
def sampleEnv : VaultEnv where
  mkdirResult _ := none
  writeResult p := if p = "root/css/b.css" then some "Error: disk full" else none
  bufferToString _ _ := "binary"

/-! ## Theorems -/

/-- C3: `idealDefaultPath` returns the parent directory of the stored
last-used export path exactly when that path string is non-empty and the
path exists on disk, and returns the vault (workspace) root otherwise; its
output is always one of these two values. The hypothesis `hmk` states that
the `Path` constructor preserves the stored string. -/
theorem idealDefaultPath_spec {P : Type} (ops : PathOps P) (exportPath : String)
    (hmk : ops.asString (ops.mkPath exportPath) = exportPath) :
    (exportPath ≠ "" ∧ ops.pathExists (ops.mkPath exportPath) = true →
      idealDefaultPath ops exportPath = ops.directory (ops.mkPath exportPath)) ∧
    (¬(exportPath ≠ "" ∧ ops.pathExists (ops.mkPath exportPath) = true) →
      idealDefaultPath ops exportPath = ops.vaultPath) ∧
    (idealDefaultPath ops exportPath = ops.directory (ops.mkPath exportPath) ∨
      idealDefaultPath ops exportPath = ops.vaultPath) := by
  by_cases h : exportPath ≠ "" ∧ ops.pathExists (ops.mkPath exportPath) = true
  · refine ⟨fun _ => ?_, fun hn => absurd h hn, Or.inl ?_⟩ <;>
      simp only [idealDefaultPath, hmk, if_pos h]
  · refine ⟨fun hp => absurd hp h, fun _ => ?_, Or.inr ?_⟩ <;>
      simp only [idealDefaultPath, hmk, if_neg h]

/-- C3 witness: with stored last-used path `a/b` present on disk, the parent
directory `a` is returned. -/
theorem idealDefaultPath_spec_witness :
    idealDefaultPath (specPathOps ["a/b"]) "a/b"
      = (specPathOps ["a/b"]).directory ((specPathOps ["a/b"]).mkPath "a/b") :=
  (idealDefaultPath_spec (specPathOps ["a/b"]) "a/b" (by decide)).1 (by decide)

/-- C4 (amended): with no native dialog capability each picker operation is
a pure function of its default arguments — its value does not depend on the
dialog collaborator's reply, and no native dialog is invoked — and it
returns: for save, the default path's directory joined with the default
file name; for open-file and folder, the supplied default path itself. -/
theorem mobilePickers_pure {P : Type} (ops : PathOps P) (r r' : SaveDialogResult)
    (q q' : OpenDialogResult) (defaultPath : P) (defaultFileName : String)
    (showAllFilesOption : Bool) :
    showSaveDialog ops false r defaultPath defaultFileName showAllFilesOption =
      ([.notice ("Exporting to " ++
          ops.asString (ops.joinString (ops.directory defaultPath) defaultFileName))],
        some (ops.joinString (ops.directory defaultPath) defaultFileName)) ∧
    showSelectFolderDialog ops false q defaultPath =
      ([.notice ("Using default folder: " ++ ops.asString defaultPath)], some defaultPath) ∧
    showSelectFileDialog ops false q defaultPath =
      ([.notice ("Using default file: " ++ ops.asString defaultPath)], some defaultPath) ∧
    showSaveDialog ops false r defaultPath defaultFileName showAllFilesOption =
      showSaveDialog ops false r' defaultPath defaultFileName showAllFilesOption ∧
    showSelectFolderDialog ops false q defaultPath =
      showSelectFolderDialog ops false q' defaultPath ∧
    showSelectFileDialog ops false q defaultPath =
      showSelectFileDialog ops false q' defaultPath ∧
    (showSaveDialog ops false r defaultPath defaultFileName
        showAllFilesOption).1.filter isNativeDialogEvent = [] ∧
    (showSelectFolderDialog ops false q defaultPath).1.filter isNativeDialogEvent = [] ∧
    (showSelectFileDialog ops false q defaultPath).1.filter isNativeDialogEvent = [] :=
  ⟨rfl, rfl, rfl, rfl, rfl, rfl, rfl, rfl, rfl⟩

/-- C4 counterexample: on the managed-filesystem branch the save picker does
not return the supplied default `Path`: with default `out/export.html` and
default file name `index.html` it returns `out/index.html`. -/
theorem showSaveDialog_mobile_not_default :
    (showSaveDialog (specPathOps []) false ⟨false, ""⟩
        ((specPathOps []).mkPath "out/export.html") "index.html" true).2 ≠
      some ((specPathOps []).mkPath "out/export.html") := by
  decide

/-- C7: the result of each picker operation is a `Path` or the absent value
(`Option` in the embedding); when the native dialog reply is a cancel, each
operation returns the absent value rather than failing. -/
theorem pickers_cancel_absent {P : Type} (ops : PathOps P) (r : SaveDialogResult)
    (q : OpenDialogResult) (defaultPath : P) (defaultFileName : String)
    (showAllFilesOption : Bool) (hr : r.canceled = true) (hq : q.canceled = true) :
    (showSaveDialog ops true r defaultPath defaultFileName showAllFilesOption).2 = none ∧
    (showSelectFolderDialog ops true q defaultPath).2 = none ∧
    (showSelectFileDialog ops true q defaultPath).2 = none := by
  refine ⟨?_, ?_, ?_⟩ <;>
    simp [showSaveDialog, showSelectFolderDialog, showSelectFileDialog, hr, hq]

/-- C7 witness: the three pickers at a concrete canceled reply. -/
theorem pickers_cancel_absent_witness :
    (showSaveDialog (specPathOps []) true ⟨true, "picked"⟩
        ((specPathOps []).mkPath "a/b.html") "b.html" true).2 = none ∧
    (showSelectFolderDialog (specPathOps []) true ⟨true, ["picked"]⟩
        ((specPathOps []).mkPath "a/b.html")).2 = none ∧
    (showSelectFileDialog (specPathOps []) true ⟨true, ["picked"]⟩
        ((specPathOps []).mkPath "a/b.html")).2 = none :=
  pickers_cancel_absent (specPathOps []) ⟨true, "picked"⟩ ⟨true, ["picked"]⟩
    ((specPathOps []).mkPath "a/b.html") "b.html" true rfl rfl

/-- C8: on the desktop branch `showSaveDialog` passes the native dialog a
filter list whose first entry is named by the target's extension with its
leading dot removed, uppercased and suffixed with `" Files"`, with that
dotless extension as its extension list; and the list has a second entry
`"All Files"`/`"*"` exactly when the all-files option is enabled. -/
theorem showSaveDialog_filters {P : Type} (ops : PathOps P) (r : SaveDialogResult)
    (defaultPath : P) (defaultFileName : String) (showAllFilesOption : Bool) :
    (showSaveDialog ops true r defaultPath defaultFileName showAllFilesOption).1 =
      [.nativeSaveDialog (ops.asString (saveDialogDefaultPath ops defaultPath defaultFileName))
        (saveDialogFilters ops defaultPath defaultFileName showAllFilesOption)] ∧
    (saveDialogFilters ops defaultPath defaultFileName showAllFilesOption).get? 0 =
      some ⟨(if (ops.extension (saveDialogDefaultPath ops defaultPath
                  defaultFileName)).startsWith "." then
               (ops.extension (saveDialogDefaultPath ops defaultPath defaultFileName)).drop 1
             else
               ops.extension (saveDialogDefaultPath ops defaultPath defaultFileName)).toUpper
              ++ " Files",
            [if (ops.extension (saveDialogDefaultPath ops defaultPath
                  defaultFileName)).startsWith "." then
               (ops.extension (saveDialogDefaultPath ops defaultPath defaultFileName)).drop 1
             else
               ops.extension (saveDialogDefaultPath ops defaultPath defaultFileName)]⟩ ∧
    (saveDialogFilters ops defaultPath defaultFileName showAllFilesOption).get? 1 =
      (if showAllFilesOption then some ⟨"All Files", ["*"]⟩ else none) ∧
    (saveDialogFilters ops defaultPath defaultFileName showAllFilesOption).length =
      (if showAllFilesOption then 2 else 1) := by
  cases showAllFilesOption <;>
    simp [showSaveDialog, saveDialogFilters, trimStart, show ".".length = 1 from rfl]

/-- Every iteration of the download loop reports progress exactly once,
whatever the filesystem replies. -/
theorem downloadStep_filter_progress {P : Type} (ops : PathOps P) (env : VaultEnv)
    (root : P) (total i : Nat) (f : Downloadable P) :
    (downloadStep ops env root total i f).filter isProgressEvent =
      [.progress i total "Downloading Files"
        ("Downloading: " ++ ops.asString f.relativePath)] := by
  cases hm : env.mkdirResult (dirPathOf ops root f) with
  | none =>
    cases hw : env.writeResult (filePathOf ops root f) <;>
      simp [downloadStep, hm, *, isProgressEvent]
  | some e => simp [downloadStep, hm, isProgressEvent]

/-- When directory creation succeeds, the iteration attempts the write
exactly once, whatever the write reply. -/
theorem downloadStep_filter_write {P : Type} (ops : PathOps P) (env : VaultEnv)
    (root : P) (total i : Nat) (f : Downloadable P)
    (hm : env.mkdirResult (dirPathOf ops root f) = none) :
    (downloadStep ops env root total i f).filter isWriteEvent =
      [.writeAttempt (filePathOf ops root f) (payloadOf env f)] := by
  cases hw : env.writeResult (filePathOf ops root f) <;>
    simp [downloadStep, hm, *, isWriteEvent]

/-- A fully successful iteration logs no error and emits no notice. -/
theorem downloadStep_ok_quiet {P : Type} (ops : PathOps P) (env : VaultEnv)
    (root : P) (total i : Nat) (f : Downloadable P)
    (hm : env.mkdirResult (dirPathOf ops root f) = none)
    (hw : env.writeResult (filePathOf ops root f) = none) :
    (downloadStep ops env root total i f).filter isErrorLogEvent = [] ∧
    (downloadStep ops env root total i f).filter isNoticeEvent = [] := by
  constructor <;> simp [downloadStep, hm, hw, isErrorLogEvent, isNoticeEvent]

/-- An iteration whose write throws logs exactly one error and emits exactly
one notice, both naming the artifact's relative path. -/
theorem downloadStep_write_fails {P : Type} (ops : PathOps P) (env : VaultEnv)
    (root : P) (total i : Nat) (f : Downloadable P) (err : String)
    (hm : env.mkdirResult (dirPathOf ops root f) = none)
    (hw : env.writeResult (filePathOf ops root f) = some err) :
    (downloadStep ops env root total i f).filter isErrorLogEvent =
      [.errorLog ("Failed to write file " ++ ops.asString f.relativePath ++ ": " ++ err)] ∧
    (downloadStep ops env root total i f).filter isNoticeEvent =
      [.notice ("Failed to write file " ++ ops.asString f.relativePath)] := by
  constructor <;> simp [downloadStep, hm, hw, isErrorLogEvent, isNoticeEvent]

/-- The progress indices of the loop run from the starting index upward, one
per artifact, in order. -/
theorem downloadFilesFrom_progress {P : Type} (ops : PathOps P) (env : VaultEnv)
    (root : P) (total : Nat) :
    ∀ (files : List (Downloadable P)) (i : Nat),
      ((downloadFilesFrom ops env root total i files).filter isProgressEvent).map
        progressIndex = List.range' i files.length := by
  intro files
  induction files with
  | nil => intro i; simp [downloadFilesFrom]
  | cons f rest ih =>
    intro i
    simp [downloadFilesFrom, List.filter_append, downloadStep_filter_progress,
      ih (i + 1), List.range', progressIndex]

/-- When every directory creation succeeds, the loop attempts each
artifact's write exactly once, in list order. -/
theorem downloadFilesFrom_writes {P : Type} (ops : PathOps P) (env : VaultEnv)
    (root : P) (total : Nat) :
    ∀ (files : List (Downloadable P)) (i : Nat),
      (∀ f ∈ files, env.mkdirResult (dirPathOf ops root f) = none) →
      (downloadFilesFrom ops env root total i files).filter isWriteEvent =
        files.map (fun f => .writeAttempt (filePathOf ops root f) (payloadOf env f)) := by
  intro files
  induction files with
  | nil => intro i _; simp [downloadFilesFrom]
  | cons f rest ih =>
    intro i hm
    have hf := hm f (List.mem_cons_self f rest)
    simp [downloadFilesFrom, List.filter_append, downloadStep_filter_write _ _ _ _ _ _ hf,
      ih (i + 1) (fun g hg => hm g (List.mem_cons_of_mem f hg))]

/-- A loop in which every directory creation and every write succeeds logs
no error and emits no notice. -/
theorem downloadFilesFrom_all_ok_quiet {P : Type} (ops : PathOps P) (env : VaultEnv)
    (root : P) (total : Nat) :
    ∀ (files : List (Downloadable P)) (i : Nat),
      (∀ f ∈ files, env.mkdirResult (dirPathOf ops root f) = none) →
      (∀ f ∈ files, env.writeResult (filePathOf ops root f) = none) →
      (downloadFilesFrom ops env root total i files).filter isErrorLogEvent = [] ∧
      (downloadFilesFrom ops env root total i files).filter isNoticeEvent = [] := by
  intro files
  induction files with
  | nil => intro i _ _; simp [downloadFilesFrom]
  | cons f rest ih =>
    intro i hm hw
    have h1 := downloadStep_ok_quiet ops env root total i f
      (hm f (List.mem_cons_self f rest)) (hw f (List.mem_cons_self f rest))
    have h2 := ih (i + 1) (fun g hg => hm g (List.mem_cons_of_mem f hg))
      (fun g hg => hw g (List.mem_cons_of_mem f hg))
    constructor <;> simp [downloadFilesFrom, List.filter_append, h1.1, h1.2, h2.1, h2.2]

/-- With all directory creations succeeding and exactly the write of the
artifact at position `k` throwing, the loop logs exactly one error and
emits exactly one notice, both naming that artifact's relative path. -/
theorem downloadFilesFrom_one_failure {P : Type} (ops : PathOps P) (env : VaultEnv)
    (root : P) (total : Nat) :
    ∀ (files : List (Downloadable P)) (i k : Nat) (hk : k < files.length) (err : String),
      (∀ f ∈ files, env.mkdirResult (dirPathOf ops root f) = none) →
      env.writeResult (filePathOf ops root (files.get ⟨k, hk⟩)) = some err →
      (∀ j (hj : j < files.length), j ≠ k →
        env.writeResult (filePathOf ops root (files.get ⟨j, hj⟩)) = none) →
      (downloadFilesFrom ops env root total i files).filter isErrorLogEvent =
        [.errorLog ("Failed to write file " ++
          ops.asString (files.get ⟨k, hk⟩).relativePath ++ ": " ++ err)] ∧
      (downloadFilesFrom ops env root total i files).filter isNoticeEvent =
        [.notice ("Failed to write file " ++
          ops.asString (files.get ⟨k, hk⟩).relativePath)] := by
  intro files
  induction files with
  | nil => intro i k hk; exact absurd hk (Nat.not_lt_zero k)
  | cons f rest ih =>
    intro i k hk err hm hfail hok
    cases k with
    | zero =>
      have hstep := downloadStep_write_fails ops env root total i f err
        (hm f (List.mem_cons_self f rest)) hfail
      have hrest : ∀ g ∈ rest, env.writeResult (filePathOf ops root g) = none := by
        intro g hg
        obtain ⟨⟨m, hmlt⟩, hget⟩ := List.mem_iff_get.mp hg
        have h := hok (m + 1) (Nat.succ_lt_succ hmlt) (Nat.succ_ne_zero m)
        rw [show (f :: rest).get ⟨m + 1, Nat.succ_lt_succ hmlt⟩
            = rest.get ⟨m, hmlt⟩ from rfl, hget] at h
        exact h
      have hquiet := downloadFilesFrom_all_ok_quiet ops env root total rest (i + 1)
        (fun g hg => hm g (List.mem_cons_of_mem f hg)) hrest
      constructor <;>
        simp [downloadFilesFrom, List.filter_append, hstep.1, hstep.2, hquiet.1, hquiet.2]
    | succ k' =>
      have hhead : env.writeResult (filePathOf ops root f) = none :=
        hok 0 (Nat.zero_lt_succ _) (Nat.succ_ne_zero k').symm
      have hstep := downloadStep_ok_quiet ops env root total i f
        (hm f (List.mem_cons_self f rest)) hhead
      have hk' : k' < rest.length := Nat.lt_of_succ_lt_succ hk
      have htail := ih (i + 1) k' hk' err
        (fun g hg => hm g (List.mem_cons_of_mem f hg)) hfail
        (fun j hj hne => hok (j + 1) (Nat.succ_lt_succ hj) (fun h => hne (Nat.succ_injective h)))
      constructor <;>
        simp [downloadFilesFrom, List.filter_append, hstep.1, hstep.2, htail.1, htail.2]

/-- C1: when the write of artifact `k` throws a storage error while every
directory creation and every other write succeeds, `downloadFiles` still
attempts the write of every artifact — each exactly once, in list order,
with no retry — and exactly one error-log entry and exactly one notice are
emitted, both naming artifact `k`'s relative path. -/
theorem downloadFiles_isolates_failure {P : Type} (ops : PathOps P) (env : VaultEnv)
    (files : List (Downloadable P)) (root : P) (k : Nat) (hk : k < files.length)
    (err : String)
    (hm : ∀ f ∈ files, env.mkdirResult (dirPathOf ops root f) = none)
    (hfail : env.writeResult (filePathOf ops root (files.get ⟨k, hk⟩)) = some err)
    (hok : ∀ j (hj : j < files.length), j ≠ k →
      env.writeResult (filePathOf ops root (files.get ⟨j, hj⟩)) = none) :
    (downloadFiles ops env files root).filter isWriteEvent =
      files.map (fun f => .writeAttempt (filePathOf ops root f) (payloadOf env f)) ∧
    (downloadFiles ops env files root).filter isErrorLogEvent =
      [.errorLog ("Failed to write file " ++
        ops.asString (files.get ⟨k, hk⟩).relativePath ++ ": " ++ err)] ∧
    (downloadFiles ops env files root).filter isNoticeEvent =
      [.notice ("Failed to write file " ++
        ops.asString (files.get ⟨k, hk⟩).relativePath)] := by
  have h1 := downloadFilesFrom_writes ops env root files.length files 0 hm
  have h2 := downloadFilesFrom_one_failure ops env root files.length files 0 k hk err
    hm hfail hok
  exact ⟨h1, h2.1, h2.2⟩

/-- C1 witness: in the sample scenario the write of artifact `1`
(`css/b.css`) throws, all three writes are attempted, and exactly one error
log and one notice name `css/b.css`. -/
theorem downloadFiles_isolates_failure_witness :
    (downloadFiles (specPathOps []) sampleEnv sampleFiles sampleRoot).filter isWriteEvent =
      sampleFiles.map (fun f =>
        .writeAttempt (filePathOf (specPathOps []) sampleRoot f) (payloadOf sampleEnv f)) ∧
    (downloadFiles (specPathOps []) sampleEnv sampleFiles sampleRoot).filter
        isErrorLogEvent =
      [.errorLog ("Failed to write file " ++
        (specPathOps []).asString (sampleFiles.get ⟨1, by decide⟩).relativePath ++
        ": " ++ "Error: disk full")] ∧
    (downloadFiles (specPathOps []) sampleEnv sampleFiles sampleRoot).filter isNoticeEvent =
      [.notice ("Failed to write file " ++
        (specPathOps []).asString (sampleFiles.get ⟨1, by decide⟩).relativePath)] :=
  downloadFiles_isolates_failure (specPathOps []) sampleEnv sampleFiles sampleRoot 1
    (by decide) "Error: disk full" (by decide) (by decide) (by decide)

/-- Each iteration's trace starts with its progress report, and when the
directory creation succeeds the write attempt follows it. -/
theorem downloadStep_progress_then_write {P : Type} (ops : PathOps P) (env : VaultEnv)
    (root : P) (total i : Nat) (f : Downloadable P)
    (hm : env.mkdirResult (dirPathOf ops root f) = none) :
    ∃ tail, downloadStep ops env root total i f =
        .progress i total "Downloading Files"
          ("Downloading: " ++ ops.asString f.relativePath) :: tail ∧
      .writeAttempt (filePathOf ops root f) (payloadOf env f) ∈ tail := by
  cases hw : env.writeResult (filePathOf ops root f) with
  | none =>
    exact ⟨[.mkdirAttempt (dirPathOf ops root f),
            .writeAttempt (filePathOf ops root f) (payloadOf env f)],
      by simp [downloadStep, hm, hw], by simp⟩
  | some err =>
    exact ⟨[.mkdirAttempt (dirPathOf ops root f),
            .writeAttempt (filePathOf ops root f) (payloadOf env f),
            .errorLog ("Failed to write file " ++ ops.asString f.relativePath ++ ": " ++ err),
            .notice ("Failed to write file " ++ ops.asString f.relativePath)],
      by simp [downloadStep, hm, hw], by simp⟩

/-- The loop's trace splits around the iteration of the artifact at any
position `k`. -/
theorem downloadFilesFrom_split {P : Type} (ops : PathOps P) (env : VaultEnv)
    (root : P) (total : Nat) :
    ∀ (files : List (Downloadable P)) (i k : Nat) (hk : k < files.length),
      ∃ pre post, downloadFilesFrom ops env root total i files =
        pre ++ downloadStep ops env root total (i + k) (files.get ⟨k, hk⟩) ++ post := by
  intro files
  induction files with
  | nil => intro i k hk; exact absurd hk (Nat.not_lt_zero k)
  | cons f rest ih =>
    intro i k hk
    cases k with
    | zero =>
      exact ⟨[], downloadFilesFrom ops env root total (i + 1) rest,
        by simp [downloadFilesFrom]⟩
    | succ k' =>
      obtain ⟨pre, post, hsplit⟩ := ih (i + 1) k' (Nat.lt_of_succ_lt_succ hk)
      refine ⟨downloadStep ops env root total i f ++ pre, post, ?_⟩
      have harith : i + 1 + k' = i + (k' + 1) := by omega
      simp only [downloadFilesFrom, hsplit, harith, List.append_assoc,
        List.get, List.length_cons]

/-- C2: `downloadFiles` emits exactly `N` progress reports whose
`currentIndex` values run in order from `0` to `N - 1`, processing the
artifacts strictly in list order, and whenever artifact `k`'s directory
creation succeeds its progress report occurs strictly before its write
attempt in the trace. -/
theorem downloadFiles_progress_order {P : Type} (ops : PathOps P) (env : VaultEnv)
    (files : List (Downloadable P)) (root : P) :
    ((downloadFiles ops env files root).filter isProgressEvent).map progressIndex =
      List.range files.length ∧
    ∀ k (hk : k < files.length),
      env.mkdirResult (dirPathOf ops root (files.get ⟨k, hk⟩)) = none →
      ∃ pre post, downloadFiles ops env files root =
          pre ++ .progress k files.length "Downloading Files"
            ("Downloading: " ++ ops.asString (files.get ⟨k, hk⟩).relativePath) :: post ∧
        .writeAttempt (filePathOf ops root (files.get ⟨k, hk⟩))
          (payloadOf env (files.get ⟨k, hk⟩)) ∈ post := by
  constructor
  · rw [List.range_eq_range']
    exact downloadFilesFrom_progress ops env root files.length files 0
  · intro k hk hm
    obtain ⟨pre, post, hsplit⟩ :=
      downloadFilesFrom_split ops env root files.length files 0 k hk
    obtain ⟨tail, hstep, hmem⟩ :=
      downloadStep_progress_then_write ops env root files.length (0 + k)
        (files.get ⟨k, hk⟩) hm
    refine ⟨pre, tail ++ post, ?_, List.mem_append_left post hmem⟩
    rw [downloadFiles, hsplit, hstep]
    simp [Nat.zero_add]

/-- C2 witness: in the sample scenario the progress indices are `0, 1, 2`
and artifact `1`'s progress report precedes its write attempt. -/
theorem downloadFiles_progress_order_witness :
    ((downloadFiles (specPathOps []) sampleEnv sampleFiles sampleRoot).filter
        isProgressEvent).map progressIndex = List.range sampleFiles.length ∧
    (∃ pre post, downloadFiles (specPathOps []) sampleEnv sampleFiles sampleRoot =
        pre ++ .progress 1 sampleFiles.length "Downloading Files"
          ("Downloading: " ++
            (specPathOps []).asString (sampleFiles.get ⟨1, by decide⟩).relativePath) :: post ∧
      .writeAttempt (filePathOf (specPathOps []) sampleRoot (sampleFiles.get ⟨1, by decide⟩))
        (payloadOf sampleEnv (sampleFiles.get ⟨1, by decide⟩)) ∈ post) :=
  ⟨(downloadFiles_progress_order (specPathOps []) sampleEnv sampleFiles sampleRoot).1,
    (downloadFiles_progress_order (specPathOps []) sampleEnv sampleFiles sampleRoot).2
      1 (by decide) (by decide)⟩

/-- If the predicate first turns true `n` ticks after tick `t` and no
earlier tick reaches the timeout, the interval loop clears its timer and
resolves `true`. -/
theorem waitGo_success (condition : Nat → Bool) (timeout interval : Nat) :
    ∀ (n t timer fuel : Nat), n + 1 ≤ fuel →
      (∀ m, m < n → condition (t + m) = false) →
      (∀ m, m < n → timer + (m + 1) * interval < timeout) →
      condition (t + n) = true →
      resolvesCleanly (waitGo condition timeout interval fuel t timer) true := by
  intro n
  induction n with
  | zero =>
    intro t timer fuel hfuel _ _ htrue
    cases fuel with
    | zero => omega
    | succ f =>
      rw [Nat.add_zero] at htrue
      exact ⟨by simp [waitGo, htrue], ⟨[.sample t true], by simp [waitGo, htrue]⟩⟩
  | succ n ih =>
    intro t timer fuel hfuel hfalse htimer htrue
    cases fuel with
    | zero => omega
    | succ f =>
      have h0 : condition t = false := by simpa using hfalse 0 (Nat.zero_lt_succ n)
      have hlt : ¬ timeout ≤ timer + interval := by
        have := htimer 0 (Nat.zero_lt_succ n)
        simpa using Nat.not_le_of_lt this
      have hrec := ih (t + 1) (timer + interval) f (by omega)
        (fun m hm => by
          have := hfalse (m + 1) (Nat.succ_lt_succ hm)
          simpa [Nat.add_assoc, Nat.add_comm 1 m] using this)
        (fun m hm => by
          have := htimer (m + 1) (Nat.succ_lt_succ hm)
          rw [Nat.succ_mul] at this
          linarith [this])
        (by
          have : t + 1 + n = t + (n + 1) := by omega
          rw [this]; exact htrue)
      obtain ⟨hres, l, hl⟩ := hrec
      refine ⟨?_, ⟨.sample t false :: l, ?_⟩⟩ <;>
        simp [waitGo, h0, hlt, hres, hl]

/-- If the predicate stays false through the first tick whose accumulated
wait reaches the timeout, the interval loop clears its timer and resolves
`false`. -/
theorem waitGo_timeout (condition : Nat → Bool) (timeout interval : Nat) :
    ∀ (n t timer fuel : Nat), n + 1 ≤ fuel →
      (∀ m, m ≤ n → condition (t + m) = false) →
      (∀ m, m < n → timer + (m + 1) * interval < timeout) →
      timeout ≤ timer + (n + 1) * interval →
      resolvesCleanly (waitGo condition timeout interval fuel t timer) false := by
  intro n
  induction n with
  | zero =>
    intro t timer fuel hfuel hfalse _ hto
    cases fuel with
    | zero => omega
    | succ f =>
      have h0 : condition t = false := by simpa using hfalse 0 (Nat.le_refl 0)
      have hge : timeout ≤ timer + interval := by simpa using hto
      refine ⟨by simp [waitGo, h0, hge], ⟨[.sample t false], by simp [waitGo, h0, hge]⟩⟩
  | succ n ih =>
    intro t timer fuel hfuel hfalse htimer hto
    cases fuel with
    | zero => omega
    | succ f =>
      have h0 : condition t = false := by simpa using hfalse 0 (Nat.zero_le _)
      have hlt : ¬ timeout ≤ timer + interval := by
        have := htimer 0 (Nat.zero_lt_succ n)
        simpa using Nat.not_le_of_lt this
      have hrec := ih (t + 1) (timer + interval) f (by omega)
        (fun m hm => by
          have := hfalse (m + 1) (Nat.succ_le_succ hm)
          simpa [Nat.add_assoc, Nat.add_comm 1 m] using this)
        (fun m hm => by
          have := htimer (m + 1) (Nat.succ_lt_succ hm)
          rw [Nat.succ_mul] at this
          linarith [this])
        (by
          rw [Nat.succ_mul] at hto
          linarith [hto])
      obtain ⟨hres, l, hl⟩ := hrec
      refine ⟨?_, ⟨.sample t false :: l, ?_⟩⟩ <;>
        simp [waitGo, h0, hlt, hres, hl]

/-- C5: `waitUntil` resolves `true` at the first interval tick whose sample
of the predicate is true, and resolves `false` at the first tick whose
accumulated wait time (`interval` added per tick) reaches or exceeds the
timeout with the predicate still false; in both outcomes the interval timer
is cleared before resolution and nothing follows the resolution. -/
theorem waitUntil_spec (condition : Nat → Bool) (timeout interval fuel : Nat) :
    (∀ t, condition 0 = false → 1 ≤ t → t ≤ fuel →
      (∀ s, s < t → condition s = false) → condition t = true →
      (∀ s, 1 ≤ s → s < t → s * interval < timeout) →
      resolvesCleanly (waitUntil condition timeout interval fuel) true) ∧
    (∀ T, condition 0 = false → 1 ≤ T → T ≤ fuel →
      (∀ s, s ≤ T → condition s = false) →
      (∀ s, 1 ≤ s → s < T → s * interval < timeout) →
      timeout ≤ T * interval →
      resolvesCleanly (waitUntil condition timeout interval fuel) false) := by
  constructor
  · intro t h0 h1 hfuel hfalse htrue hto
    have hgo := waitGo_success condition timeout interval (t - 1) 1 0 fuel (by omega)
      (fun m hm => hfalse (1 + m) (by omega))
      (fun m hm => by
        have := hto (m + 1) (by omega) (by omega)
        simpa using this)
      (by
        have : 1 + (t - 1) = t := by omega
        rw [this]; exact htrue)
    obtain ⟨hres, l, hl⟩ := hgo
    refine ⟨?_, ⟨.sample 0 false :: .scheduleTimer :: l, ?_⟩⟩ <;>
      simp [waitUntil, h0, hres, hl]
  · intro T h0 h1 hfuel hfalse hto hfin
    have hgo := waitGo_timeout condition timeout interval (T - 1) 1 0 fuel (by omega)
      (fun m hm => hfalse (1 + m) (by omega))
      (fun m hm => by
        have := hto (m + 1) (by omega) (by omega)
        simpa using this)
      (by
        have heq : T - 1 + 1 = T := by omega
        rw [heq]
        simpa using hfin)
    obtain ⟨hres, l, hl⟩ := hgo
    refine ⟨?_, ⟨.sample 0 false :: .scheduleTimer :: l, ?_⟩⟩ <;>
      simp [waitUntil, h0, hres, hl]

/-- C5 witness: a predicate first true at tick `3` (timeout `10`,
interval `2`) resolves `true`; a never-true predicate with timeout `4` and
interval `2` resolves `false` at tick `2`; both runs clear the timer. -/
theorem waitUntil_spec_witness :
    resolvesCleanly (waitUntil (fun t => t == 3) 10 2 5) true ∧
    resolvesCleanly (waitUntil (fun _ => false) 4 2 8) false :=
  ⟨(waitUntil_spec (fun t => t == 3) 10 2 5).1 3 (by decide) (by decide) (by decide)
      (by decide) (by decide) (by decide),
    (waitUntil_spec (fun _ => false) 4 2 8).2 2 (by decide) (by decide) (by decide)
      (by decide) (by decide) (by decide)⟩

/-- C6: if the predicate is true at call time, `waitUntil` samples it once,
resolves `true` immediately, and never schedules (nor clears) a timer,
whatever the timeout, interval and fuel. -/
theorem waitUntil_immediate (condition : Nat → Bool) (timeout interval fuel : Nat)
    (h : condition 0 = true) :
    waitUntil condition timeout interval fuel =
      ([.sample 0 true, .resolved true], some true) ∧
    WaitEvent.scheduleTimer ∉ (waitUntil condition timeout interval fuel).1 ∧
    ((waitUntil condition timeout interval fuel).1.filter isSampleEvent).length = 1 := by
  refine ⟨?_, ?_, ?_⟩ <;> simp [waitUntil, h, isSampleEvent]

/-- C6 witness: an immediately-true predicate at concrete arguments. -/
theorem waitUntil_immediate_witness :
    waitUntil (fun _ => true) 1000 100 7 =
      ([.sample 0 true, .resolved true], some true) ∧
    WaitEvent.scheduleTimer ∉ (waitUntil (fun _ => true) 1000 100 7).1 ∧
    ((waitUntil (fun _ => true) 1000 100 7).1.filter isSampleEvent).length = 1 :=
  waitUntil_immediate (fun _ => true) 1000 100 7 rfl

/-- The reference distance to the empty list is the length. -/
theorem levRef_nil_right : ∀ xs : List Char, levRef xs [] = xs.length := by
  intro xs
  cases xs <;> simp [levRef]

set_option maxHeartbeats 1000000 in
/-- Reassociation of the nine-leaf minimum shared by the two readings of the
Levenshtein recursion (first versus last element). -/
theorem min9_shuffle (p q r s t w m n o c1 c2 : Nat) :
    min (min (min (min (p+1) (q+1)) (r+c1) + 1) (min (min (s+1) (t+1)) (w+c1) + 1))
        (min (min (m+1) (n+1)) (o+c1) + c2)
  = min (min (min (min (p+1) (s+1)) (m+c2) + 1) (min (min (q+1) (t+1)) (n+c2) + 1))
        (min (min (r+1) (w+1)) (o+c2) + c1) := by
  refine le_antisymm ?_ ?_ <;>
    simp only [← Nat.add_min_add_right, le_min_iff, min_le_iff] <;>
    omega

set_option maxHeartbeats 1000000 in
/-- The reference recursion read off the last element of each list. -/
theorem levRef_snoc (x y : Char) :
    ∀ xs ys : List Char, levRef (xs ++ [x]) (ys ++ [y]) =
      min (min (levRef xs (ys ++ [y]) + 1) (levRef (xs ++ [x]) ys + 1))
          (levRef xs ys + if x = y then 0 else 1) := by
  intro xs
  induction xs with
  | nil =>
    intro ys
    induction ys with
    | nil => simp [levRef]
    | cons b bs ihb =>
      simp only [List.nil_append] at ihb ⊢
      simp only [List.cons_append, levRef, List.length_append, List.length_cons,
        List.length_nil]
      rw [ihb]
      simp only [levRef, List.length_append, List.length_cons, List.length_nil]
      split_ifs <;> omega
  | cons a as iha =>
    intro ys
    induction ys with
    | nil =>
      have h1 := iha []
      simp only [List.nil_append] at h1
      simp only [List.cons_append, List.nil_append, levRef, levRef_nil_right,
        List.length_append, List.length_cons, List.length_nil] at h1 ⊢
      rw [h1]
      split_ifs <;> omega
    | cons b bs ihb =>
      have h1 := iha (b :: bs)
      have h2 := ihb
      have h3 := iha bs
      simp only [List.cons_append] at h1 h2 h3 ⊢
      simp only [levRef]
      rw [h1, h2, h3]
      exact min9_shuffle _ _ _ _ _ _ _ _ _ _ _

/-- The reference distance is invariant under reversing both lists. -/
theorem levRef_reverse : ∀ xs ys : List Char, levRef xs.reverse ys.reverse = levRef xs ys := by
  intro xs
  induction xs with
  | nil =>
    intro ys
    simp [levRef, levRef_nil_right]
  | cons a as iha =>
    intro ys
    induction ys with
    | nil => simp [levRef_nil_right]
    | cons b bs ihb =>
      have h1 := iha (b :: bs)
      have h3 := iha bs
      simp only [List.reverse_cons] at h1 ihb ⊢
      rw [levRef_snoc a b as.reverse bs.reverse, h1, ihb, h3]
      simp [levRef]

/-- The reference distance is symmetric. -/
theorem levRef_symm : ∀ xs ys : List Char, levRef xs ys = levRef ys xs := by
  intro xs
  induction xs with
  | nil =>
    intro ys
    simp [levRef, levRef_nil_right]
  | cons a as iha =>
    intro ys
    induction ys with
    | nil => simp [levRef, levRef_nil_right]
    | cons b bs ihb =>
      simp only [levRef]
      rw [iha (b :: bs), ihb, iha bs]
      have hc : (if a = b then 0 else 1) = (if b = a then 0 else 1) := by
        split_ifs with h1 h2 h2
        · rfl
        · exact absurd h1.symm h2
        · exact absurd h2.symm h1
        · rfl
      rw [hc]
      omega

/-- The reference distance vanishes exactly on equal lists. -/
theorem levRef_eq_zero_iff : ∀ xs ys : List Char, levRef xs ys = 0 ↔ xs = ys := by
  intro xs
  induction xs with
  | nil =>
    intro ys
    cases ys <;> simp [levRef]
  | cons a as iha =>
    intro ys
    cases ys with
    | nil => simp [levRef_nil_right]
    | cons b bs =>
      simp only [levRef, List.cons.injEq]
      by_cases h : a = b
      · subst h
        rw [← iha bs]
        simp
      · simp only [if_neg h]
        constructor
        · intro h0
          omega
        · rintro ⟨hab, -⟩
          exact absurd hab h

/-- The reference recursion agrees with Mathlib's Levenshtein distance at
the default cost structure. -/
theorem levRef_eq_levenshtein : ∀ xs ys : List Char,
    levRef xs ys = levenshtein Levenshtein.defaultCost xs ys := by
  intro xs
  induction xs with
  | nil =>
    intro ys
    induction ys with
    | nil => simp [levRef]
    | cons b bs ihb =>
      simp only [levRef, List.length_cons] at ihb ⊢
      rw [levenshtein_nil_cons]
      simp only [Levenshtein.defaultCost_insert] at ihb ⊢
      omega
  | cons a as iha =>
    intro ys
    induction ys with
    | nil =>
      have h1 := iha []
      rw [levenshtein_cons_nil, ← h1, levRef_nil_right, levRef_nil_right]
      simp only [Levenshtein.defaultCost_delete, List.length_cons]
      omega
    | cons b bs ihb =>
      rw [levenshtein_cons_cons]
      simp only [levRef]
      rw [iha (b :: bs), ihb, iha bs]
      simp only [Levenshtein.defaultCost_delete, Levenshtein.defaultCost_insert,
        Levenshtein.defaultCost_substitute]
      split_ifs <;> omega

/-- The dynamic-programming entry `arr[i][j]` is the reference distance
between the first `j` characters of `string1` and the first `i` characters
of `string2` (lists reversed so the recursion peels the last character). -/
theorem levEntry_eq (s1 s2 : List Char) :
    ∀ i j, i ≤ s2.length → j ≤ s1.length →
      levEntry s1 s2 i j = levRef ((s1.take j).reverse) ((s2.take i).reverse) := by
  intro i
  induction i with
  | zero =>
    intro j hi hj
    simp only [levEntry, List.take_zero, List.reverse_nil, levRef_nil_right,
      List.length_reverse, List.length_take]
    omega
  | succ i ihi =>
    intro j
    induction j with
    | zero =>
      intro hi hj
      simp only [levEntry, List.take_zero, List.reverse_nil, levRef,
        List.length_reverse, List.length_take]
      omega
    | succ j ihj =>
      intro hi hj
      have hi1 : i < s2.length := by omega
      have hj1 : j < s1.length := by omega
      have hq1 : s1.get? j = some (s1.get ⟨j, hj1⟩) := List.get?_eq_get hj1
      have hq2 : s2.get? i = some (s2.get ⟨i, hi1⟩) := List.get?_eq_get hi1
      have hg1 : s1[j]? = some (s1.get ⟨j, hj1⟩) := by
        rw [List.getElem?_eq_getElem hj1]
        rfl
      have hg2 : s2[i]? = some (s2.get ⟨i, hi1⟩) := by
        rw [List.getElem?_eq_getElem hi1]
        rfl
      have ht1 : (s1.take (j + 1)).reverse = s1.get ⟨j, hj1⟩ :: (s1.take j).reverse := by
        rw [List.take_succ, hg1]
        simp
      have ht2 : (s2.take (i + 1)).reverse = s2.get ⟨i, hi1⟩ :: (s2.take i).reverse := by
        rw [List.take_succ, hg2]
        simp
      have e1 := ihi (j + 1) (by omega) hj
      have e2 := ihj (by omega) (by omega)
      have e3 := ihi j (by omega) (by omega)
      simp only [levEntry]
      rw [e1, e2, e3, ht1, ht2]
      simp only [levRef, hq1, hq2, Option.some.injEq]
      omega

/-- `Utils.levenshteinDistance` computes the reference distance of the two
character lists. -/
theorem levenshteinDistance_eq_levRef (string1 string2 : String) :
    levenshteinDistance string1 string2 = levRef string1.data string2.data := by
  unfold levenshteinDistance
  by_cases h1 : string1.length = 0
  · have hd : string1.data = [] := List.length_eq_zero.mp h1
    rw [if_pos h1, hd]
    simp [levRef]
  · by_cases h2 : string2.length = 0
    · have hd : string2.data = [] := List.length_eq_zero.mp h2
      rw [if_neg h1, if_pos h2, hd, levRef_nil_right]
      rfl
    · rw [if_neg h1, if_neg h2]
      have he := levEntry_eq string1.data string2.data string2.length string1.length
        (Nat.le_refl _) (Nat.le_refl _)
      rw [he, show string1.data.take string1.length = string1.data from
            List.take_length string1.data,
          show string2.data.take string2.length = string2.data from
            List.take_length string2.data,
        levRef_reverse]

/-- C9: `levenshteinDistance` computes the reference Levenshtein edit
distance (stated both against the textbook recursion `levRef` and against
Mathlib's `levenshtein` at the default unit costs); in particular it
returns the other string's length when either argument is empty, vanishes
exactly on equal strings, and is symmetric. -/
theorem levenshteinDistance_correct (string1 string2 : String) :
    levenshteinDistance string1 string2 = levRef string1.data string2.data ∧
    levenshteinDistance string1 string2 =
      levenshtein Levenshtein.defaultCost string1.data string2.data ∧
    levenshteinDistance string1 string2 = levenshteinDistance string2 string1 ∧
    (levenshteinDistance string1 string2 = 0 ↔ string1 = string2) ∧
    levenshteinDistance "" string2 = string2.length ∧
    levenshteinDistance string1 "" = string1.length := by
  have h12 := levenshteinDistance_eq_levRef string1 string2
  have h21 := levenshteinDistance_eq_levRef string2 string1
  refine ⟨h12, ?_, ?_, ?_, ?_, ?_⟩
  · rw [h12, levRef_eq_levenshtein]
  · rw [h12, h21, levRef_symm]
  · rw [h12, levRef_eq_zero_iff]
    exact ⟨fun h => String.ext h, fun h => by rw [h]⟩
  · rw [levenshteinDistance_eq_levRef "" string2,
      show ("" : String).data = [] from rfl]
    simp [levRef]
  · rw [levenshteinDistance_eq_levRef string1 "",
      show ("" : String).data = [] from rfl, levRef_nil_right]
    rfl

/-- Repeating a one-character string `n` times yields `n` copies of the
character. -/
theorem stringRepeatN_data (char : String) (c : Char) (hc : char.data = [c]) :
    ∀ n, (stringRepeatN char n).data = List.replicate n c := by
  intro n
  induction n with
  | zero => rfl
  | succ n ih =>
    show (char ++ stringRepeatN char n).data = List.replicate (n + 1) c
    rw [show (char ++ stringRepeatN char n).data
        = char.data ++ (stringRepeatN char n).data from rfl, hc, ih]
    rfl

/-- C10: when the target length is at least the string's length,
`padStringBeggining` succeeds with a string of exactly the target length
consisting of the needed copies of the pad character followed by the
string; when the string is longer than the target, the underlying repeat
throws its negative-count range error. -/
theorem padStringBeggining_spec (str char : String) (len : Nat) (c : Char)
    (hc : char.data = [c]) :
    (str.length ≤ len →
      padStringBeggining str len char =
        .ok (String.mk (List.replicate (len - str.length) c ++ str.data)) ∧
      (String.mk (List.replicate (len - str.length) c ++ str.data)).length = len) ∧
    (len < str.length →
      padStringBeggining str len char = .error "RangeError: Invalid count value") := by
  constructor
  · intro h
    constructor
    · unfold padStringBeggining stringRepeat
      rw [if_neg (by omega : ¬((len : Int) - (str.length : Int) < 0))]
      have htn : ((len : Int) - (str.length : Int)).toNat = len - str.length := by omega
      rw [htn]
      show Except.ok (stringRepeatN char (len - str.length) ++ str) = _
      refine congrArg Except.ok (String.ext ?_)
      rw [show (stringRepeatN char (len - str.length) ++ str).data
          = (stringRepeatN char (len - str.length)).data ++ str.data from rfl,
        stringRepeatN_data char c hc]
    · show (List.replicate (len - str.length) c ++ str.data).length = len
      rw [List.length_append, List.length_replicate]
      have : str.data.length = str.length := rfl
      omega
  · intro h
    unfold padStringBeggining stringRepeat
    rw [if_pos (by omega : (len : Int) - (str.length : Int) < 0)]
    rfl

/-- C10 witness: padding `ab` to length `5` with `0` gives `000ab`; padding
`abcdef` to length `3` throws the range error. -/
theorem padStringBeggining_spec_witness :
    padStringBeggining "ab" 5 "0" =
      .ok (String.mk (List.replicate (5 - "ab".length) '0' ++ "ab".data)) ∧
    (String.mk (List.replicate (5 - "ab".length) '0' ++ "ab".data)).length = 5 ∧
    padStringBeggining "abcdef" 3 "0" = .error "RangeError: Invalid count value" :=
  ⟨((padStringBeggining_spec "ab" "0" 5 '0' rfl).1 (by decide)).1,
   ((padStringBeggining_spec "ab" "0" 5 '0' rfl).1 (by decide)).2,
   (padStringBeggining_spec "abcdef" "0" 3 '0' rfl).2 (by decide)⟩

end WebpageExport
